import Mathlib

/-!
A verification development for the BigBlueButton management command
`pod/video/management/commands/bbb.py` of Esup-Pod.

The command reconciles BBB/Scalelite meetings with the Pod database,
polls for available recordings, matches BBB moderators to Pod users and
ingests recording files dropped by bbb-recorder.

The embedding below models:
  * the persisted rows (`Meeting`, `BBBUser`, `PodUser`, `Video`) as Lean
    structures, and the database as lists of rows kept in id (creation)
    order, as produced by autoincrementing primary keys;
  * parsed XML responses (`MeetingElem`, `AttendeeElem`, `RecordingElem`,
    `PlaybackElem`, ...) as records whose fields are `Option`s — a `none`
    field stands for a missing element / missing text node, which in the
    Python source raises inside the enclosing `try` block;
  * the external date parser `dateutil.parser.parse` as an explicit
    `String → Option Int` parameter (timestamps are modelled as seconds);
  * `os.rename` as an explicit `String → Bool` success predicate; a
    failing move raises, and — the source having no handler around
    `encode_file_exist` — the exception propagates, which the model
    renders as `Except.error`;
  * the two error accumulators `message_error` / `html_message_error`,
    threaded exactly as in the source: in particular the calls at
    bbb.py lines 239, 307 and 472 discard the strings returned by
    `get_meeting`, `get_attendee` and `get_recording`.
-/

/-! ## String helpers -/

/-- Case-insensitive containment, the semantics of Django's
`name__icontains=pat` filter used at bbb.py line 381: the candidate
`hay` must contain `pat` as a substring, ignoring case. -/
def icontains (hay pat : String) : Bool :=
  decide ((pat.data.map Char.toLower) <:+: (hay.data.map Char.toLower))

/-- The token after the last `'.'` of a character list: the value of
Python's `filename.split(".")[-1]` (bbb.py line 195). For a dotless
name it is the whole name. -/
def extTokenOf (f : List Char) : List Char :=
  (f.reverse.takeWhile (fun c => decide (c ≠ '.'))).reverse

/-- `filename.split(".")[-1]` on `String`s. -/
def extension_of (filename : String) : String :=
  ⟨extTokenOf filename.data⟩

/-- Fuel-driven worker for Python's `str.replace(pat, "")` with the
non-empty pattern `c :: p`: scan left to right, removing each
(non-overlapping) occurrence of the pattern. The fuel is set to the
length of the scanned list, which each step strictly decreases. -/
def pyReplaceAux (c : Char) (p : List Char) : Nat → List Char → List Char
  | _, [] => []
  | 0, a :: s => a :: s
  | fuel + 1, a :: s =>
    if (c :: p).isPrefixOf (a :: s) then pyReplaceAux c p fuel (s.drop p.length)
    else a :: pyReplaceAux c p fuel s

/-- Python's `s.replace(String.mk (c :: p), "")` on character lists. -/
def pyReplaceDel (c : Char) (p : List Char) (s : List Char) : List Char :=
  pyReplaceAux c p s.length s

/-- Python's `s.replace(pat, "")` on `String`s (for the empty pattern the
source never calls it; we return `s` unchanged). This is the operation
of bbb.py line 149, `filename.replace("." + extension, "")`. -/
def pyReplace (s : String) (pat : String) : String :=
  match pat.data with
  | [] => s
  | c :: p => ⟨pyReplaceDel c p s.data⟩

/-- Update the first element satisfying `p` — the effect of mutating the
row returned by Django's `.filter(...).first()` and saving it. -/
def updateFirst (p : α → Bool) (f : α → α) : List α → List α
  | [] => []
  | a :: l => if p a then f a :: l else a :: updateFirst p f l

/-! ## Settings (bbb.py lines 65-134, with their defaults) -/

/-- `VIDEO_ALLOWED_EXTENSIONS` (bbb.py lines 102-124). -/
def VIDEO_ALLOWED_EXTENSIONS : List String :=
  ["3gp", "avi", "divx", "flv", "m2p", "m4v", "mkv", "mov", "mp4", "mpeg",
   "mpg", "mts", "wmv", "mp3", "ogg", "wav", "wma", "webm", "ts"]

/-- `DEFAULT_BBB_TYPE_ID` (bbb.py line 91). -/
def DEFAULT_BBB_TYPE_ID : Nat := 1

/-- Four days in seconds: `timezone.timedelta(days=4)` at bbb.py line 417,
with timestamps modelled as seconds. -/
def fourDays : Int := 4 * 86400

/-! ## Persisted rows -/

/-- A row of `pod.bbb.models.Meeting` as used by the command. -/
structure Meeting where
  id : Nat
  meeting_id : String
  internal_meeting_id : String
  meeting_name : String
  session_date : Int
  recorded : Bool
  recording_available : Bool
  recording_url : String
  thumbnail_url : String
  encoding_step : Nat
  encoded_by_id : Option Nat
deriving DecidableEq, Repr

/-- A row of `pod.bbb.models.User` (imported as `BBBUser`). -/
structure BBBUser where
  id : Nat
  full_name : String
  role : String
  meeting_id : Nat
  user_id : Option Nat
  username : String
deriving DecidableEq, Repr

/-- A row of `django.contrib.auth.models.User` as the matcher reads it. -/
structure PodUser where
  id : Nat
  username : String
  first_name : String
  last_name : String
deriving DecidableEq, Repr

/-- A row of `pod.video.models.Video` as built by `encode_file_exist`;
`video` holds the destination path of the moved file. -/
structure Video where
  title : String
  owner : Option Nat
  type_id : Nat
  date_evt : Int
  video : String
deriving DecidableEq, Repr

/-- The Pod database state touched by the command, each table held in
id (creation) order, plus the filesystem moves performed this run. -/
structure Db where
  meetings : List Meeting
  bbb_users : List BBBUser
  pod_users : List PodUser
  videos : List Video
  moved : List String
  next_meeting_id : Nat
  next_bbb_user_id : Nat
deriving DecidableEq, Repr

/-! ## Parsed XML -/

/-- An `<attendee>` element: `none` fields stand for a missing child
element or text node (which raises in the source). -/
structure AttendeeElem where
  fullName : Option String
  role : Option String
deriving DecidableEq, Repr

/-- A `<meeting>` element of a `getMeetings` response. -/
structure MeetingElem where
  meetingName : Option String
  meetingID : Option String
  internalMeetingID : Option String
  createDate : Option String
  recording : Option String
  attendees : List AttendeeElem
deriving DecidableEq, Repr

/-- A parsed `getMeetings` response body. -/
structure MeetingsDoc where
  returncode : String
  meetings : List MeetingElem
deriving DecidableEq, Repr

/-- A `<playback>` element of a `getRecordings` response (`url` is its
first `<url>` text, `image` its first `<image>` text). -/
structure PlaybackElem where
  url : String
  image : String
deriving DecidableEq, Repr

/-- A `<recording>` element of a `getRecordings` response. -/
structure RecordingElem where
  internalMeetingID : Option String
  playbacks : List PlaybackElem
deriving DecidableEq, Repr

/-- A parsed `getRecordings` response body. -/
structure RecordingsDoc where
  returncode : String
  recordings : List RecordingElem
deriving DecidableEq, Repr

/-! ## Discovery: `get_attendee`, `get_meeting`, `get_bbb_meetings_by_xml`
(bbb.py lines 211-357) -/

/-- Error text of the `except` branch of `get_attendee` (bbb.py 348-355). -/
def attendee_err : String :=
  "Problem to get BBB attendee and save in Pod database"

/-- `get_attendee` (bbb.py lines 322-357): retain only `MODERATOR`
attendees; create a `BBBUser` row keyed by `(full_name, meeting_id)`
only when none exists; a missing `fullName`/`role` raises and the
handler appends to both error strings and returns them. -/
def get_attendee (attendee : AttendeeElem) (idActualMeeting : Nat)
    (html_message_error message_error : String) (db : Db) :
    Db × String × String :=
  match attendee.fullName, attendee.role with
  | some fullName, some role =>
    if role = "MODERATOR" then
      match db.bbb_users.find?
          (fun u => decide (u.full_name = fullName ∧ u.meeting_id = idActualMeeting)) with
      | some _ => (db, html_message_error, message_error)
      | none =>
        ({ db with
            bbb_users := db.bbb_users ++
              [{ id := db.next_bbb_user_id, full_name := fullName, role := "MODERATOR",
                 meeting_id := idActualMeeting, user_id := none, username := "" }],
            next_bbb_user_id := db.next_bbb_user_id + 1 },
         html_message_error, message_error)
    else (db, html_message_error, message_error)
  | _, _ =>
    (db, html_message_error ++ "<li>" ++ attendee_err ++ "</li>",
     message_error ++ attendee_err ++ "\n")

/-- Error text of the `except` branch of `get_meeting` (bbb.py 310-317). -/
def meeting_err : String :=
  "Problem to get BBB meeting and save in Pod database"

/-- `get_meeting` (bbb.py lines 253-319). `parseDate` models the external
`dateutil.parser.parse`; it is only consulted on the creation branch, as
in the source. The attendee loop at line 307 discards the strings
returned by `get_attendee`, so only the database part of its result is
kept. A missing child element, or an unparsable date, raises and the
handler appends to both error strings. -/
def get_meeting (parseDate : String → Option Int) (meeting : MeetingElem)
    (html_message_error message_error : String) (db : Db) :
    Db × String × String :=
  match meeting.meetingName, meeting.meetingID, meeting.internalMeetingID,
        meeting.createDate, meeting.recording with
  | some meetingName, some meetingID, some internalMeetingID, some date, some recording =>
    match db.meetings.find?
        (fun o => decide (o.internal_meeting_id = internalMeetingID)) with
    | some oMeeting =>
      let db1 : Db :=
        if oMeeting.recorded = false ∧ recording = "true" then
          { db with
              meetings := updateFirst
                (fun o => decide (o.internal_meeting_id = internalMeetingID))
                (fun o => { o with recorded := true }) db.meetings }
        else db
      let db2 := meeting.attendees.foldl
        (fun d a => (get_attendee a oMeeting.id html_message_error message_error d).1) db1
      (db2, html_message_error, message_error)
    | none =>
      match parseDate date with
      | some dateForSql =>
        let newId := db.next_meeting_id
        let db1 : Db :=
          { db with
              meetings := db.meetings ++
                [{ id := newId, meeting_id := meetingID,
                   internal_meeting_id := internalMeetingID,
                   meeting_name := meetingName, session_date := dateForSql,
                   recorded := decide (recording = "true"),
                   recording_available := false, recording_url := "",
                   thumbnail_url := "", encoding_step := 0, encoded_by_id := none }],
              next_meeting_id := newId + 1 }
        let db2 := meeting.attendees.foldl
          (fun d a => (get_attendee a newId html_message_error message_error d).1) db1
        (db2, html_message_error, message_error)
      | none =>
        (db, html_message_error ++ "<li>" ++ meeting_err ++ "</li>",
         message_error ++ meeting_err ++ "\n")
  | _, _, _, _, _ =>
    (db, html_message_error ++ "<li>" ++ meeting_err ++ "</li>",
     message_error ++ meeting_err ++ "\n")

/-- Error text of the `returncode == "FAILED"` branch of
`get_bbb_meetings_by_xml` (bbb.py 231-235). -/
def meetings_failed_err : String :=
  "Return code = FAILED for : getMeetings"

/-- Error text of the `except` branch of `get_bbb_meetings_by_xml`
(bbb.py 241-248): request failure or unparsable XML. -/
def meetings_parse_err : String :=
  "Problem to parse XML meetings on the BBB/Scalelite server or save in Pod database"

/-- `get_bbb_meetings_by_xml` (bbb.py lines 211-250). `doc = none`
models a failed request / unparsable response (the `except` branch).
The loop at line 239 calls `get_meeting(meeting, html_message_error,
message_error)` and discards its return value: only the database
mutations survive, the error strings of the loop body do not. -/
def get_bbb_meetings_by_xml (parseDate : String → Option Int)
    (doc : Option MeetingsDoc)
    (html_message_error message_error : String) (db : Db) :
    Db × String × String :=
  match doc with
  | none =>
    (db, html_message_error ++ "<li>" ++ meetings_parse_err ++ "</li>",
     message_error ++ meetings_parse_err ++ "\n")
  | some doc =>
    let acc :=
      if doc.returncode = "FAILED" then
        (html_message_error ++ "<li>" ++ meetings_failed_err ++ "</li>",
         message_error ++ meetings_failed_err ++ "\n")
      else (html_message_error, message_error)
    let db1 := doc.meetings.foldl
      (fun d e => (get_meeting parseDate e acc.1 acc.2 d).1) db
    (db1, acc.1, acc.2)

/-! ## Identity matching: `matching_bbb_pod_user` (bbb.py lines 360-404) -/

/-- The candidate display name `Concat(...)` built at bbb.py lines
371-374 from the `BBB_USERNAME_FORMAT` setting. -/
def bbbUsernameFormat_candidate (format : String) (u : PodUser) : String :=
  if format = "last_name first_name" then u.last_name ++ " " ++ u.first_name
  else u.first_name ++ " " ++ u.last_name

/-- The body of the matching loop (bbb.py lines 376-390) for one BBB
user: find the first Pod user whose candidate name `icontains` the BBB
user's `full_name`; on success store its id and username. -/
def matching_bbb_pod_user_step (format : String) (podUsers : List PodUser)
    (bbbUser : BBBUser) : BBBUser :=
  match podUsers.find?
      (fun u => icontains (bbbUsernameFormat_candidate format u) bbbUser.full_name) with
  | some podUser => { bbbUser with username := podUser.username, user_id := some podUser.id }
  | none => bbbUser

/-- `matching_bbb_pod_user` (bbb.py lines 360-404): the 500 most recent
unmatched BBB users (`order_by('-id')[:500]` on the id-ordered table is
`reverse` then `take 500`), each saved back into its row. -/
def matching_bbb_pod_user (format : String)
    (html_message_error message_error : String) (db : Db) :
    Db × String × String :=
  let bbbUsers := ((db.bbb_users.filter (fun u => decide (u.user_id = none))).reverse).take 500
  (bbbUsers.foldl
      (fun d b =>
        { d with
            bbb_users := updateFirst (fun x => decide (x.id = b.id))
              (fun _ => matching_bbb_pod_user_step format d.pod_users b) d.bbb_users })
      db,
   html_message_error, message_error)

/-! ## Recording poller (bbb.py lines 407-536) -/

/-- Error text of the `except` branch of `get_recording` (bbb.py 527-534). -/
def recording_err : String :=
  "Problem to get BBB recording and save in Pod database"

/-- The write of bbb.py lines 517-520: mark the recording available and
store the URL pair kept by the playback loop. -/
def set_recording_urls (urls : String × String) (o : Meeting) : Meeting :=
  { o with recording_available := true,
           recording_url := urls.1, thumbnail_url := urls.2 }

/-- `get_recording` (bbb.py lines 487-536): only the recording whose
`internalMeetingID` equals the polled session's is processed; the
playback loop (lines 504-510) reassigns `recording_url` and
`thumbnail_url` on every iteration, so the last playback wins; if the
resulting URL is non-empty, the first matching `Meeting` row gets
`recording_available := true` and the URLs persisted. A recording with
no `internalMeetingID` raises into the handler. -/
def get_recording (recording : RecordingElem) (internal_meeting_id : String)
    (html_message_error message_error : String) (meetings : List Meeting) :
    List Meeting × String × String :=
  match recording.internalMeetingID with
  | none =>
    (meetings, html_message_error ++ "<li>" ++ recording_err ++ "</li>",
     message_error ++ recording_err ++ "\n")
  | some internalMeetingID =>
    if internalMeetingID = internal_meeting_id then
      match meetings.find?
          (fun o => decide (o.internal_meeting_id = internal_meeting_id)) with
      | some _ =>
        let urls := recording.playbacks.foldl
          (fun _ playback => (playback.url, playback.image)) ("", "")
        if urls.1 ≠ "" then
          (updateFirst (fun o => decide (o.internal_meeting_id = internal_meeting_id))
            (set_recording_urls urls) meetings,
           html_message_error, message_error)
        else (meetings, html_message_error, message_error)
      | none => (meetings, html_message_error, message_error)
    else (meetings, html_message_error, message_error)

/-- Error text of the `returncode == "FAILED"` branch of
`get_bbb_recording_by_xml` (bbb.py 464-468). -/
def recordings_failed_err : String :=
  "Return code = FAILED for : getRecordings"

/-- Error text of the `except` branch of `get_bbb_recording_by_xml`
(bbb.py 475-482). -/
def recordings_parse_err : String :=
  "Problem to parse XML recording on the BBB/Scalelite server or save in Pod database"

/-- `get_bbb_recording_by_xml` (bbb.py lines 440-484). `doc = none`
models a failed request / unparsable response. The loop at line 472
calls `get_recording(recording, ...)` and discards its return value:
only the database mutations survive. The `meeting_id` parameter is only
used to build the request URL in the source. -/
def get_bbb_recording_by_xml (doc : Option RecordingsDoc)
    (meeting_id internal_meeting_id : String)
    (html_message_error message_error : String) (meetings : List Meeting) :
    List Meeting × String × String :=
  match doc with
  | none =>
    (meetings, html_message_error ++ "<li>" ++ recordings_parse_err ++ "</li>",
     message_error ++ recordings_parse_err ++ "\n")
  | some doc =>
    let acc :=
      if doc.returncode = "FAILED" then
        (html_message_error ++ "<li>" ++ recordings_failed_err ++ "</li>",
         message_error ++ recordings_failed_err ++ "\n")
      else (html_message_error, message_error)
    let ms := doc.recordings.foldl
      (fun ms r => (get_recording r internal_meeting_id acc.1 acc.2 ms).1) meetings
    (ms, acc.1, acc.2)

/-- The row predicate of the selection query at bbb.py lines 418-421:
`recorded=True, recording_available=False, session_date__gte=now-4days`. -/
def recorded_filter (now : Int) (mt : Meeting) : Bool :=
  decide (mt.recorded = true ∧ mt.recording_available = false ∧
          now - fourDays ≤ mt.session_date)

/-- The selection of the Recording Poller,
`Meeting.objects.filter(...).order_by('id')` (bbb.py lines 418-421): on
the id-ordered table this is a plain filter. -/
def get_bbb_meetings_recorded_selection (now : Int) (meetings : List Meeting) :
    List Meeting :=
  meetings.filter (recorded_filter now)

/-- `get_bbb_meetings_recorded` (bbb.py lines 407-437): the selection is
evaluated once (the queryset is iterated once, before any save of the
loop body lands), then each selected meeting is polled;
`responses` maps a `meeting_id` to the parsed `getRecordings` reply. -/
def get_bbb_meetings_recorded (now : Int)
    (responses : String → Option RecordingsDoc)
    (html_message_error message_error : String) (meetings : List Meeting) :
    List Meeting × String × String :=
  let sel := get_bbb_meetings_recorded_selection now meetings
  sel.foldl
    (fun st mt =>
      get_bbb_recording_by_xml (responses mt.meeting_id)
        mt.meeting_id mt.internal_meeting_id st.2.1 st.2.2 st.1)
    (meetings, html_message_error, message_error)

/-! ## Ingestion: `encode_file_exist`, `process_directory`
(bbb.py lines 142-208) -/

/-- `encode_file_exist` (bbb.py lines 142-183). The lookup key is
`filename.replace("." + extension, "")` (line 149). When the meeting is
found, a `Video` row is built from it and the source file is moved
(`os.rename`, line 173) then the row saved and submitted for encoding;
`move_ok` models the success of the move, and since `encode_file_exist`
contains no `try`/`except`, a failing move raises: `Except.error`. When
the meeting is absent only a debug warning is printed — the error
strings are returned unchanged. -/
def encode_file_exist (move_ok : String → Bool) (filename extension : String)
    (message_error html_message_error : String) (db : Db) :
    Except String (Db × String × String) :=
  let internalMeetingId := pyReplace filename ("." ++ extension)
  match db.meetings.find?
      (fun o => decide (o.internal_meeting_id = internalMeetingId)) with
  | some oMeeting =>
    let video : Video :=
      { title := oMeeting.meeting_name, owner := oMeeting.encoded_by_id,
        type_id := DEFAULT_BBB_TYPE_ID, date_evt := oMeeting.session_date,
        video := filename }
    if move_ok filename then
      Except.ok
        ({ db with videos := db.videos ++ [video], moved := db.moved ++ [filename] },
         html_message_error, message_error)
    else Except.error ("move failed: " ++ filename)
  | none => Except.ok (db, html_message_error, message_error)

/-- `process_directory` (bbb.py lines 186-208): for each file, compute
`extension = filename.split(".")[-1]`; skip the file unless the
extension is allowed and `filename != extension`; otherwise run
`encode_file_exist`, whose uncaught exceptions propagate out of the
loop, aborting it. -/
def process_directory (move_ok : String → Bool) (files : List String)
    (html_message_error message_error : String) (db : Db) :
    Except String (Db × String × String) :=
  match files with
  | [] => Except.ok (db, html_message_error, message_error)
  | filename :: rest =>
    let extension := extension_of filename
    if extension ∈ VIDEO_ALLOWED_EXTENSIONS ∧ filename ≠ extension then
      match encode_file_exist move_ok filename extension
          message_error html_message_error db with
      | Except.ok (db2, h2, m2) => process_directory move_ok rest h2 m2 db2
      | Except.error e => Except.error e
    else process_directory move_ok rest html_message_error message_error db

/-! ## The command (`Command.handle`, bbb.py lines 548-583) -/

/-- The inputs of one run: the parsed `getMeetings` reply, the clock,
the parsed `getRecordings` replies keyed by `meeting_id`, and the files
found under `DEFAULT_BBB_PATH` (the `logs` subdirectory being removed
from the walk at lines 570-571 before `process_directory` ever sees its
files). -/
structure RunInput where
  meetingsDoc : Option MeetingsDoc
  now : Int
  recResponses : String → Option RecordingsDoc
  files : List String

/-- Stages 1-3 of `Command.handle` (bbb.py lines 553-566): discovery,
recording poll, identity matching — each with its own top-level
exception handler, hence total. -/
def run_discovery_poller_matching (parseDate : String → Option Int)
    (format : String) (inp : RunInput) (db : Db) : Db × String × String :=
  let s1 := get_bbb_meetings_by_xml parseDate inp.meetingsDoc "" "" db
  let s2 := get_bbb_meetings_recorded inp.now inp.recResponses s1.2.1 s1.2.2 s1.1.meetings
  let db2 : Db := { s1.1 with meetings := s2.1 }
  matching_bbb_pod_user format s2.2.1 s2.2.2 db2

/-- `Command.handle` for the `main` task (bbb.py lines 548-583): the
three reconciliation stages, then the directory walk, then — only if
the run got that far — the final report: `mail_admins` is called
exactly when `message_error` is non-empty, modelled as
`some (html_message_error, message_error)`. An exception escaping the
walk (no handler around it) aborts the run before the report. -/
def Command_handle (parseDate : String → Option Int) (move_ok : String → Bool)
    (format : String) (inp : RunInput) (db : Db) :
    Except String (Db × Option (String × String)) :=
  let s3 := run_discovery_poller_matching parseDate format inp db
  match process_directory move_ok inp.files s3.2.1 s3.2.2 s3.1 with
  | Except.error e => Except.error e
  | Except.ok (db4, h4, m4) =>
    Except.ok (db4, if m4 ≠ "" then some (h4, m4) else none)

/-! ## Concrete scenario states used by the theorems below -/

/-- An empty Pod database. -/
def db0 : Db :=
  { meetings := [], bbb_users := [], pod_users := [], videos := [],
    moved := [], next_meeting_id := 1, next_bbb_user_id := 1 }

/-- The single local account of the C1 scenario, whose formatted
candidate name under `"first_name last_name"` is `"Jean Dupont"`. -/
def c1_podUsers : List PodUser :=
  [{ id := 1, username := "jdupont", first_name := "Jean", last_name := "Dupont" }]

/-- An unresolved Participant whose remote full name is `"Dupont"`. -/
def c1_participant : BBBUser :=
  { id := 1, full_name := "Dupont", role := "MODERATOR", meeting_id := 1,
    user_id := none, username := "" }

/-- An unresolved Participant whose remote full name is `"Jean Dupont"`. -/
def c1_participant_full : BBBUser :=
  { c1_participant with full_name := "Jean Dupont" }

/-- A local account whose formatted candidate name is `" Dupont"`,
strictly shorter than the remote name `"Jean Dupont"`. -/
def c1_podUsers_short : List PodUser :=
  [{ id := 2, username := "dupont2", first_name := "", last_name := "Dupont" }]

/-- A `<meeting>` element with no `internalMeetingID` child: a
reportable error for that single session. -/
def c2_bad_meeting : MeetingElem :=
  { meetingName := some "Committee", meetingID := some "m1",
    internalMeetingID := none, createDate := some "2020-01-01T10:00:00Z",
    recording := some "true", attendees := [] }

/-- A well-formed `<meeting>` element carrying one `<attendee>` with no
`fullName` child. -/
def c2_meeting_with_bad_attendee : MeetingElem :=
  { meetingName := some "Committee", meetingID := some "m1",
    internalMeetingID := some "M1", createDate := some "2020-01-01T10:00:00Z",
    recording := some "true",
    attendees := [{ fullName := none, role := some "MODERATOR" }] }

/-- A `<recording>` element with no `internalMeetingID` child. -/
def c2_bad_recording : RecordingElem :=
  { internalMeetingID := none, playbacks := [] }

/-- A recorded meeting awaiting its recording URL. -/
def c4_meeting : Meeting :=
  { id := 1, meeting_id := "m1", internal_meeting_id := "M1",
    meeting_name := "Session", session_date := 0, recorded := true,
    recording_available := false, recording_url := "", thumbnail_url := "",
    encoding_step := 0, encoded_by_id := none }

/-- A matching `<recording>` element with two playback entries. -/
def c4_recording : RecordingElem :=
  { internalMeetingID := some "M1",
    playbacks := [{ url := "u1", image := "i1" }, { url := "u2", image := "i2" }] }

/-- A session far older than the 4-day window, with `recorded = true`. -/
def c6_old : Meeting :=
  { id := 1, meeting_id := "m1", internal_meeting_id := "M1",
    meeting_name := "Old", session_date := -400000, recorded := true,
    recording_available := false, recording_url := "", thumbnail_url := "",
    encoding_step := 0, encoded_by_id := none }

/-- A session inside the 4-day window. -/
def c6_new : Meeting :=
  { id := 2, meeting_id := "m2", internal_meeting_id := "M2",
    meeting_name := "New", session_date := 900000, recorded := true,
    recording_available := false, recording_url := "", thumbnail_url := "",
    encoding_step := 0, encoded_by_id := none }

/-- Number of `BBBUser` rows with the given `(full_name, meeting_id)`
key. -/
def countKey (users : List BBBUser) (fn : String) (mid : Nat) : Nat :=
  (users.filter (fun u => decide (u.full_name = fn ∧ u.meeting_id = mid))).length

/-- The attendee of the C7 witness. -/
def c7_attendee : AttendeeElem :=
  { fullName := some "Marie Curie", role := some "MODERATOR" }

/-- The discovery element of the C9 witness: the remote now reports
`recording="false"` for session `"M1"`. -/
def c9_elem : MeetingElem :=
  { meetingName := some "Session", meetingID := some "m1",
    internalMeetingID := some "M1", createDate := some "2020-01-01T10:00:00Z",
    recording := some "false", attendees := [] }

/-- The already-recorded local session of the C9 witness. -/
def c9_meeting : Meeting :=
  { id := 1, meeting_id := "m1", internal_meeting_id := "M1",
    meeting_name := "Session", session_date := 0, recorded := true,
    recording_available := false, recording_url := "", thumbnail_url := "",
    encoding_step := 0, encoded_by_id := none }

/-- The relation maintained while the poller folds over its selection:
internal ids are positionally unchanged, and every position that held
an already-available session still holds exactly that row. -/
abbrev availPreserved (db cur : List Meeting) : Prop :=
  cur.map (fun o => o.internal_meeting_id) = db.map (fun o => o.internal_meeting_id) ∧
  ∀ (i : Nat) (mt : Meeting), db[i]? = some mt → mt.recording_available = true →
    cur[i]? = some mt

/-- `s` is the internal id of a not-yet-available session of `db`. -/
abbrev pendingId (db : List Meeting) (s : String) : Prop :=
  ∃ mt ∈ db, mt.internal_meeting_id = s ∧ mt.recording_available = false

/-- A session whose recording is already linked. -/
def c5_meeting : Meeting :=
  { id := 1, meeting_id := "m1", internal_meeting_id := "M1",
    meeting_name := "Done", session_date := 0, recorded := true,
    recording_available := true, recording_url := "https://bbb/play/1",
    thumbnail_url := "https://bbb/thumb/1", encoding_step := 0,
    encoded_by_id := none }

/-- The key as the claim words it: the filename with its trailing
`".ext"` suffix removed (`ext` being the token after the last dot). -/
def spec_trailing_stripped (filename : String) : String :=
  ⟨filename.data.take
    (filename.data.length - ((extTokenOf filename.data).length + 1))⟩

/-- A session whose internal id is the trailing-stripped name of the
C8 scenario's drop file `"a.mp4.mp4"`. -/
def c8_meeting : Meeting :=
  { id := 1, meeting_id := "m1", internal_meeting_id := "a.mp4",
    meeting_name := "Session", session_date := 0, recorded := true,
    recording_available := false, recording_url := "", thumbnail_url := "",
    encoding_step := 0, encoded_by_id := none }

/-- The database of the C8 counterexample. -/
def c8_db : Db := { db0 with meetings := [c8_meeting] }

/-- First session of the C3 scenario. -/
def c3_m1 : Meeting :=
  { id := 1, meeting_id := "m1", internal_meeting_id := "M1",
    meeting_name := "One", session_date := 0, recorded := false,
    recording_available := false, recording_url := "", thumbnail_url := "",
    encoding_step := 0, encoded_by_id := none }

/-- Second session of the C3 scenario. -/
def c3_m2 : Meeting :=
  { c3_m1 with id := 2, meeting_id := "m2", internal_meeting_id := "M2",
               meeting_name := "Two" }

/-- The database of the C3 scenario. -/
def c3_db : Db := { db0 with meetings := [c3_m1, c3_m2] }

/-- A filesystem on which moving `"M1.webm"` fails. -/
def c3_move_ok : String → Bool := fun f => decide (f ≠ "M1.webm")

/-- A run whose drop directory holds `"M1.webm"` then `"M2.webm"`. -/
def c3_input : RunInput :=
  { meetingsDoc := none, now := 0, recResponses := fun _ => none,
    files := ["M1.webm", "M2.webm"] }

/-! ## Shared concrete states -/

/-! ## C1 — identity-matching direction -/

/-- C1 (counterexample): contrary to the claim, a Participant with
`fullName = "Dupont"` IS matched against the candidate `"Jean Dupont"`
under format `"first_name last_name"`: Django's `icontains` asks the
candidate to contain the remote name, and `"Jean Dupont"` contains
`"Dupont"`, so the link is set. -/
theorem C1_counterexample :
    (matching_bbb_pod_user_step "first_name last_name" c1_podUsers
        c1_participant).user_id = some 1 := by decide

/-- C1 (amended): the case-insensitive substring test requires the
remote `fullName` to be contained in the formatted candidate, in that
direction only; hence against candidate `"Jean Dupont"` both remote
`"Dupont"` and remote `"Jean Dupont"` are matched, while in the reverse
situation (candidate `" Dupont"`, remote `"Jean Dupont"`) no link is
set. -/
theorem C1_matching_direction :
    (matching_bbb_pod_user_step "first_name last_name" c1_podUsers
        c1_participant).user_id = some 1 ∧
    (matching_bbb_pod_user_step "first_name last_name" c1_podUsers
        c1_participant_full).user_id = some 1 ∧
    (matching_bbb_pod_user_step "first_name last_name" c1_podUsers_short
        c1_participant_full).user_id = none := by
  refine ⟨by decide, by decide, by decide⟩

/-! ## C2 — reportable errors of the inner units never reach the
run-level error lists -/

/-- C2: each inner unit of work does append its error to the strings it
returns, but the enclosing loops (bbb.py lines 239, 307 and 472)
discard those return values, so the run-level plain-text and HTML error
lists that the final report is built from receive no entry at all: the
session-, attendee- and recording-level errors are lost. -/
theorem C2_inner_errors_lost :
    (get_meeting (fun _ => some 0) c2_bad_meeting "" "" db0).2.2
        = meeting_err ++ "\n" ∧
    (get_bbb_meetings_by_xml (fun _ => some 0)
        (some { returncode := "SUCCESS", meetings := [c2_bad_meeting] })
        "" "" db0).2.2 = "" ∧
    (get_bbb_meetings_by_xml (fun _ => some 0)
        (some { returncode := "SUCCESS", meetings := [c2_bad_meeting] })
        "" "" db0).2.1 = "" ∧
    (get_attendee { fullName := none, role := some "MODERATOR" } 1 "" "" db0).2.2
        = attendee_err ++ "\n" ∧
    (get_meeting (fun _ => some 0) c2_meeting_with_bad_attendee "" "" db0).2.2 = "" ∧
    (get_recording c2_bad_recording "M1" "" "" []).2.2
        = recording_err ++ "\n" ∧
    (get_bbb_recording_by_xml
        (some { returncode := "SUCCESS", recordings := [c2_bad_recording] })
        "m1" "M1" "" "" []).2.2 = "" := by
  refine ⟨by decide, by decide, by decide, by decide, by decide, by decide, by decide⟩

/-! ## C4 — which playback entry is persisted -/

/-- C4: on a recording element with two playback entries, the values
persisted into `recording_url` and `thumbnail_url` are those of the
LAST playback entry, not of the first as the claim (and the source's
own comment "We take the first thumbnail found") states: the loop at
bbb.py lines 504-510 reassigns both variables on every iteration. -/
theorem C4_last_playback_persisted :
    ((get_recording c4_recording "M1" "" "" [c4_meeting]).1.head?.map
        (fun o => (o.recording_available, o.recording_url, o.thumbnail_url)))
      = some (true, "u2", "i2") := by decide

/-! ## C6 — the poller's time-windowed selection -/

/-- C6: the Recording Poller never selects a session whose
`session_date` is strictly older than `now` minus 4 days, whatever its
other flags; every selected session satisfies `recorded = true`,
`recording_available = false` and the 4-day window; and on an
id-ordered (creation-ordered) table the selection is id-ordered too. -/
theorem C6_selection_window (now : Int) (db : List Meeting) :
    (∀ mt ∈ db, mt.session_date < now - fourDays →
        mt ∉ get_bbb_meetings_recorded_selection now db) ∧
    (∀ mt ∈ get_bbb_meetings_recorded_selection now db,
        mt.recorded = true ∧ mt.recording_available = false ∧
        now - fourDays ≤ mt.session_date) ∧
    (db.Pairwise (fun a b => a.id ≤ b.id) →
        (get_bbb_meetings_recorded_selection now db).Pairwise
          (fun a b => a.id ≤ b.id)) := by
  refine ⟨?_, ?_, ?_⟩
  · intro mt _ hold hmem
    have := (List.mem_filter.mp hmem).2
    simp only [recorded_filter, decide_eq_true_eq] at this
    omega
  · intro mt hmem
    have := (List.mem_filter.mp hmem).2
    simpa only [recorded_filter, decide_eq_true_eq] using this
  · intro hp
    exact hp.filter _

/-- C6 (witness): at `now = 1000000`, the session dated `-400000` is
not selected. -/
theorem C6_selection_window_witness :
    c6_old ∉ get_bbb_meetings_recorded_selection 1000000 [c6_old, c6_new] :=
  (C6_selection_window 1000000 [c6_old, c6_new]).1 c6_old (by decide) (by decide)

/-! ## C10 — dotless file names are skipped entirely -/

/-- `takeWhile` runs through a block whose elements all satisfy the
predicate. -/
theorem takeWhile_append_all {p : α → Bool} :
    ∀ {l m : List α}, (∀ a ∈ l, p a = true) →
      (l ++ m).takeWhile p = l ++ m.takeWhile p := by
  intro l
  induction l with
  | nil => intro m _; rfl
  | cons a t ih =>
    intro m h
    have ha : p a = true := h a (List.mem_cons_self a t)
    simp [List.takeWhile_cons, ha, ih (fun x hx => h x (List.mem_cons_of_mem a hx))]

/-- On a dotless name, `filename.split(".")[-1]` is the name itself. -/
theorem extension_of_dotless (filename : String)
    (hdot : '.' ∉ filename.data) : extension_of filename = filename := by
  have hall : ∀ a ∈ filename.data.reverse, (decide (a ≠ '.')) = true := by
    intro a ha
    have : a ∈ filename.data := List.mem_reverse.mp ha
    simp only [decide_eq_true_eq]
    intro h
    exact hdot (h ▸ this)
  have : filename.data.reverse.takeWhile (fun c => decide (c ≠ '.'))
      = filename.data.reverse := by
    have := takeWhile_append_all (l := filename.data.reverse)
      (m := ([] : List Char)) (p := fun c => decide (c ≠ '.')) hall
    simpa using this
  show (⟨extTokenOf filename.data⟩ : String) = filename
  rw [extTokenOf, this, List.reverse_reverse]

/-- C10: a drop file whose name contains no dot — so its computed
extension token equals the whole name — is skipped entirely by
`process_directory`, even when that name is itself in the allow-list:
the run continues exactly as if the file were absent, with no session
lookup, no video row and no move. -/
theorem C10_dotless_file_skipped (move_ok : String → Bool) (filename : String)
    (rest : List String) (h m : String) (db : Db)
    (hdot : '.' ∉ filename.data) :
    process_directory move_ok (filename :: rest) h m db =
      process_directory move_ok rest h m db := by
  have hext := extension_of_dotless filename hdot
  simp [process_directory, hext]

/-- C10 (witness): a file literally named `"mp4"` (an allow-listed
token) is skipped. -/
theorem C10_dotless_file_skipped_witness :
    process_directory (fun _ => true) ["mp4"] "" "" db0 =
      process_directory (fun _ => true) [] "" "" db0 :=
  C10_dotless_file_skipped (fun _ => true) "mp4" [] "" "" db0 (by decide)

/-! ## C7 — duplicate participant suppression -/

/-- One `get_attendee` call on a `MODERATOR` sighting: the key's row
count becomes 1 when it was 0 and is otherwise unchanged, and the
existing rows survive as a prefix (never overwritten). -/
theorem get_attendee_users_step (a : AttendeeElem) (fn : String) (mid : Nat)
    (h m : String) (d : Db)
    (hfn : a.fullName = some fn) (hrole : a.role = some "MODERATOR") :
    (countKey (get_attendee a mid h m d).1.bbb_users fn mid
        = if countKey d.bbb_users fn mid = 0 then 1
          else countKey d.bbb_users fn mid) ∧
    ∃ t, (get_attendee a mid h m d).1.bbb_users = d.bbb_users ++ t := by
  rcases a with ⟨fn', rl'⟩
  dsimp only at hfn hrole
  subst hfn
  subst hrole
  cases hfind : d.bbb_users.find?
      (fun u => decide (u.full_name = fn ∧ u.meeting_id = mid)) with
  | some u =>
    have hmem := List.mem_of_find?_eq_some hfind
    have hq := List.find?_some hfind
    have hne : countKey d.bbb_users fn mid ≠ 0 := by
      simp only [countKey, ne_eq, List.length_eq_zero]
      intro hnil
      have : u ∈ d.bbb_users.filter
          (fun u => decide (u.full_name = fn ∧ u.meeting_id = mid)) :=
        List.mem_filter.mpr ⟨hmem, hq⟩
      rw [hnil] at this
      exact absurd this (List.not_mem_nil u)
    have hres : (get_attendee ⟨some fn, some "MODERATOR"⟩ mid h m d).1.bbb_users
        = d.bbb_users := by
      simp only [get_attendee, if_pos rfl, hfind, if_true]
    rw [hres, if_neg hne]
    exact ⟨rfl, [], by simp⟩
  | none =>
    have h0 : countKey d.bbb_users fn mid = 0 := by
      simp only [countKey, List.length_eq_zero, List.filter_eq_nil_iff]
      intro x hx
      exact List.find?_eq_none.mp hfind x hx
    have hres : (get_attendee ⟨some fn, some "MODERATOR"⟩ mid h m d).1.bbb_users
        = d.bbb_users ++
          [{ id := d.next_bbb_user_id, full_name := fn, role := "MODERATOR",
             meeting_id := mid, user_id := none, username := "" }] := by
      simp only [get_attendee, if_pos rfl, hfind, if_true]
    rw [hres, if_pos h0]
    refine ⟨?_, ⟨_, rfl⟩⟩
    have h0' : (List.filter
        (fun u => decide (u.full_name = fn ∧ u.meeting_id = mid)) d.bbb_users).length
        = 0 := h0
    have hqrow : (fun u : BBBUser => decide (u.full_name = fn ∧ u.meeting_id = mid))
        { id := d.next_bbb_user_id, full_name := fn, role := "MODERATOR",
          meeting_id := mid, user_id := none, username := "" } = true := by simp
    simp only [countKey, List.filter_append, List.length_append, h0']
    simp [List.filter_cons, hqrow]

/-- C7: starting from a state with no Participant row for
`(fullName, sessionId)`, processing the same `MODERATOR` attendee any
positive number of times (within one run or across runs) yields exactly
one row for that key, and the pre-existing rows are never overwritten:
they survive unchanged as a prefix of the table. -/
theorem C7_participant_upsert (a : AttendeeElem) (fn : String) (mid : Nat)
    (h m : String) (db : Db) (n : Nat)
    (hfn : a.fullName = some fn) (hrole : a.role = some "MODERATOR")
    (h0 : countKey db.bbb_users fn mid = 0) :
    countKey (((fun d => (get_attendee a mid h m d).1)^[n + 1]) db).bbb_users fn mid
        = 1 ∧
    ∃ t, (((fun d => (get_attendee a mid h m d).1)^[n + 1]) db).bbb_users
        = db.bbb_users ++ t := by
  induction n with
  | zero =>
    have := get_attendee_users_step a fn mid h m db hfn hrole
    rw [h0] at this
    simpa using this
  | succ k ih =>
    obtain ⟨ih1, t, ih2⟩ := ih
    rw [Function.iterate_succ_apply']
    have := get_attendee_users_step a fn mid h m
      (((fun d => (get_attendee a mid h m d).1)^[k + 1]) db) hfn hrole
    rw [ih1] at this
    obtain ⟨h1, t', h2⟩ := this
    refine ⟨by simpa using h1, ⟨t ++ t', ?_⟩⟩
    rw [h2, ih2, List.append_assoc]

/-- C7 (witness): two sightings of moderator `"Marie Curie"` for
session 1, starting from the empty table, leave exactly one row. -/
theorem C7_participant_upsert_witness :
    countKey (((fun d => (get_attendee c7_attendee 1 "" "" d).1)^[2]) db0).bbb_users
        "Marie Curie" 1 = 1 ∧
    ∃ t, (((fun d => (get_attendee c7_attendee 1 "" "" d).1)^[2]) db0).bbb_users
        = db0.bbb_users ++ t :=
  C7_participant_upsert c7_attendee "Marie Curie" 1 "" "" db0 1 rfl rfl (by decide)

/-! ## C9 — the reconciler never clears the `recorded` flag -/

/-- `get_attendee` only ever touches the `bbb_users` table. -/
theorem get_attendee_meetings (a : AttendeeElem) (mid : Nat) (h m : String)
    (d : Db) : (get_attendee a mid h m d).1.meetings = d.meetings := by
  rcases a with ⟨fn, rl⟩
  rcases fn with _ | f <;> rcases rl with _ | r
  · rfl
  · rfl
  · rfl
  · simp only [get_attendee]
    split
    · split <;> rfl
    · rfl

/-- The attendee loop of `get_meeting` leaves the `meetings` table
untouched. -/
theorem foldl_get_attendee_meetings (l : List AttendeeElem) (mid : Nat)
    (h m : String) (d : Db) :
    (l.foldl (fun d a => (get_attendee a mid h m d).1) d).meetings
      = d.meetings := by
  induction l generalizing d with
  | nil => rfl
  | cons a t ih => rw [List.foldl_cons, ih, get_attendee_meetings]

/-- C9: when the discovery response reports any `recording` value for a
session that already exists locally with `recorded = true`, the
reconciler leaves the whole `meetings` table — in particular that
session's `recorded` flag and every other field — unchanged: the only
write on the existing-session path requires `recorded = false`. -/
theorem C9_recorded_not_unset (parseDate : String → Option Int)
    (e : MeetingElem) (imid : String) (o : Meeting) (h m : String) (db : Db)
    (r : String)
    (hname : ∃ nm, e.meetingName = some nm)
    (hmid : ∃ mi, e.meetingID = some mi)
    (hiid : e.internalMeetingID = some imid)
    (hdate : ∃ dt, e.createDate = some dt)
    (hrec : e.recording = some r) (hr : r ≠ "true")
    (hfind : db.meetings.find?
        (fun o2 => decide (o2.internal_meeting_id = imid)) = some o)
    (ho : o.recorded = true) :
    (get_meeting parseDate e h m db).1.meetings = db.meetings := by
  obtain ⟨nm, hnm⟩ := hname
  obtain ⟨mi, hmi⟩ := hmid
  obtain ⟨dt, hdt⟩ := hdate
  simp only [get_meeting, hnm, hmi, hiid, hdt, hrec, hfind]
  have hcond : ¬ (o.recorded = false ∧ r = "true") := by
    rintro ⟨h1, _⟩
    rw [ho] at h1
    exact Bool.noConfusion h1
  rw [if_neg hcond]
  exact foldl_get_attendee_meetings _ _ _ _ _

/-- C9 (witness): the reconciler leaves the table `[c9_meeting]`
unchanged on the `recording="false"` sighting. -/
theorem C9_recorded_not_unset_witness :
    (get_meeting (fun _ => some 0) c9_elem "" ""
        { db0 with meetings := [c9_meeting] }).1.meetings = [c9_meeting] :=
  C9_recorded_not_unset (fun _ => some 0) c9_elem "M1" c9_meeting "" ""
    { db0 with meetings := [c9_meeting] } "false"
    ⟨"Session", rfl⟩ ⟨"m1", rfl⟩ rfl ⟨"2020-01-01T10:00:00Z", rfl⟩ rfl
    (by decide) (by decide) rfl

/-! ## C5 — `recording_available` is one-way -/

/-- `updateFirst` with an id-preserving update preserves the id map. -/
theorem updateFirst_map {α β : Type} (p : α → Bool) (f : α → α) (g : α → β)
    (hg : ∀ a, g (f a) = g a) (l : List α) :
    (updateFirst p f l).map g = l.map g := by
  induction l with
  | nil => rfl
  | cons a t ih =>
    by_cases hp : p a
    · simp [updateFirst, hp, hg]
    · simp [updateFirst, hp, ih]

/-- `updateFirst` leaves every position whose element fails the
predicate untouched. -/
theorem updateFirst_getElem? {α : Type} (p : α → Bool) (f : α → α) :
    ∀ (l : List α) (i : Nat) (x : α), l[i]? = some x → p x = false →
      (updateFirst p f l)[i]? = some x := by
  intro l
  induction l with
  | nil => intro i x h _; simp at h
  | cons a t ih =>
    intro i x h hx
    cases i with
    | zero =>
      simp only [List.getElem?_cons_zero, Option.some_inj] at h
      subst h
      simp [updateFirst, hx]
    | succ j =>
      simp only [List.getElem?_cons_succ] at h
      by_cases hp : p a
      · simp [updateFirst, hp, h]
      · simp [updateFirst, hp, ih j x h hx]

/-- A single `get_recording` call polled for a pending internal id
cannot touch a position holding an already-available session. -/
theorem get_recording_preserves (db : List Meeting)
    (hnodup : (db.map (fun o => o.internal_meeting_id)).Nodup)
    (r : RecordingElem) (imid : String) (h m : String) (cur : List Meeting)
    (hsafe : pendingId db imid) (hp : availPreserved db cur) :
    availPreserved db (get_recording r imid h m cur).1 := by
  unfold get_recording
  cases hiid : r.internalMeetingID with
  | none => exact hp
  | some rid =>
    dsimp only
    by_cases hrid : rid = imid
    · rw [if_pos hrid]
      cases hfind : cur.find? (fun o => decide (o.internal_meeting_id = imid)) with
      | none => exact hp
      | some o =>
        dsimp only
        by_cases hurl :
            (r.playbacks.foldl
              (fun _ playback => (playback.url, playback.image)) ("", "")).1 ≠ ""
        · rw [if_pos hurl]
          refine ⟨?_, ?_⟩
          · exact Eq.trans
              (updateFirst_map (fun o => decide (o.internal_meeting_id = imid))
                (set_recording_urls (r.playbacks.foldl
                  (fun _ playback => (playback.url, playback.image)) ("", "")))
                (fun o => o.internal_meeting_id) (fun _ => rfl) cur) hp.1
          · intro i mt hi hav
            have hcuri := hp.2 i mt hi hav
            apply updateFirst_getElem? _ _ cur i mt hcuri
            obtain ⟨mt', hmem', hid', hav'⟩ := hsafe
            have hmtmem : mt ∈ db := List.getElem?_mem hi
            rw [decide_eq_false_iff_not]
            intro heq
            have heq2 : mt = mt' :=
              List.inj_on_of_nodup_map hnodup hmtmem hmem' (by rw [heq, hid'])
            rw [heq2, hav'] at hav
            exact Bool.noConfusion hav
        · rw [if_neg hurl]; exact hp
    · rw [if_neg hrid]; exact hp

/-- The recording loop of `get_bbb_recording_by_xml` preserves
`availPreserved` when polling a pending internal id. -/
theorem foldl_get_recording_preserves (db : List Meeting)
    (hnodup : (db.map (fun o => o.internal_meeting_id)).Nodup)
    (imid : String) (hsafe : pendingId db imid) :
    ∀ (rs : List RecordingElem) (h m : String) (cur : List Meeting),
      availPreserved db cur →
      availPreserved db
        (rs.foldl (fun ms r => (get_recording r imid h m ms).1) cur) := by
  intro rs
  induction rs with
  | nil => intro h m cur hp; exact hp
  | cons r t ih =>
    intro h m cur hp
    rw [List.foldl_cons]
    exact ih h m _ (get_recording_preserves db hnodup r imid h m cur hsafe hp)

/-- One full `get_bbb_recording_by_xml` call for a pending internal id
preserves `availPreserved`. -/
theorem get_bbb_recording_by_xml_preserves (db : List Meeting)
    (hnodup : (db.map (fun o => o.internal_meeting_id)).Nodup)
    (doc : Option RecordingsDoc) (mid imid : String) (h m : String)
    (cur : List Meeting)
    (hsafe : pendingId db imid) (hp : availPreserved db cur) :
    availPreserved db (get_bbb_recording_by_xml doc mid imid h m cur).1 := by
  cases doc with
  | none => exact hp
  | some d =>
    exact foldl_get_recording_preserves db hnodup imid hsafe d.recordings _ _ cur hp

/-- The poller's whole selection loop preserves `availPreserved`. -/
theorem foldl_poll_preserves (db : List Meeting)
    (hnodup : (db.map (fun o => o.internal_meeting_id)).Nodup)
    (responses : String → Option RecordingsDoc) :
    ∀ (sel : List Meeting), (∀ mt ∈ sel, pendingId db mt.internal_meeting_id) →
      ∀ (st : List Meeting × String × String), availPreserved db st.1 →
      availPreserved db
        ((sel.foldl
            (fun st mt => get_bbb_recording_by_xml (responses mt.meeting_id)
              mt.meeting_id mt.internal_meeting_id st.2.1 st.2.2 st.1)
            st).1) := by
  intro sel
  induction sel with
  | nil => intro _ st hp; exact hp
  | cons mt t ih =>
    intro hall st hp
    rw [List.foldl_cons]
    exact ih (fun x hx => hall x (List.mem_cons_of_mem mt hx)) _
      (get_bbb_recording_by_xml_preserves db hnodup (responses mt.meeting_id)
        mt.meeting_id mt.internal_meeting_id st.2.1 st.2.2 st.1
        (hall mt (List.mem_cons_self mt t)) hp)

/-- C5: on a table with distinct internal ids, a session already having
`recording_available = true` is untouched by a whole poller run: its
selection excludes such sessions, and the only write of the poller sets
`recording_available := true` on a pending session — so the row (flag,
`recording_url`, `thumbnail_url` and all) survives at its position. -/
theorem C5_recording_available_monotonic (now : Int)
    (responses : String → Option RecordingsDoc) (h m : String)
    (db : List Meeting)
    (hnodup : (db.map (fun o => o.internal_meeting_id)).Nodup)
    (i : Nat) (mt : Meeting) (hi : db[i]? = some mt)
    (hav : mt.recording_available = true) :
    (get_bbb_meetings_recorded now responses h m db).1[i]? = some mt := by
  have hsel : ∀ x ∈ get_bbb_meetings_recorded_selection now db,
      pendingId db x.internal_meeting_id := by
    intro x hx
    have hmem := (List.mem_filter.mp hx).1
    have hpred := (List.mem_filter.mp hx).2
    simp only [recorded_filter, decide_eq_true_eq] at hpred
    exact ⟨x, hmem, rfl, hpred.2.1⟩
  have hbase : availPreserved db db := ⟨rfl, fun _ _ hj _ => hj⟩
  have hrun := foldl_poll_preserves db hnodup responses
    (get_bbb_meetings_recorded_selection now db) hsel (db, h, m) hbase
  exact hrun.2 i mt hi hav

/-- C5 (witness): a poller run over the one-row table `[c5_meeting]`
leaves the already-available row exactly in place. -/
theorem C5_recording_available_monotonic_witness :
    (get_bbb_meetings_recorded 0 (fun _ => none) "" "" [c5_meeting]).1[0]?
      = some c5_meeting :=
  C5_recording_available_monotonic 0 (fun _ => none) "" "" [c5_meeting]
    (by decide) 0 c5_meeting rfl (by decide)

/-! ## C8 — the lookup key of the ingestor -/

/-- C8 (counterexample): for the drop file `"a.mp4.mp4"` the code's key
`filename.replace("." + extension, "")` is `"a"`, not the
trailing-stripped `"a.mp4"`: Python's `replace` removes every
occurrence. Consequently the lookup misses the session whose internal
id is `"a.mp4"` and the file is silently left unprocessed. -/
theorem C8_counterexample :
    pyReplace "a.mp4.mp4" ("." ++ extension_of "a.mp4.mp4") = "a" ∧
    spec_trailing_stripped "a.mp4.mp4" = "a.mp4" ∧
    ("a" : String) ≠ "a.mp4" ∧
    encode_file_exist (fun _ => true) "a.mp4.mp4" "mp4" "" "" c8_db
      = Except.ok (c8_db, "", "") := by
  refine ⟨by decide, by decide, by decide, by rfl⟩

/-- On a name of the form `base ++ "." ++ ext` with no dot in `ext`,
the token after the last dot is `ext`. -/
theorem extTokenOf_append_ext (base ext : List Char) (hdot : '.' ∉ ext) :
    extTokenOf (base ++ '.' :: ext) = ext := by
  unfold extTokenOf
  rw [List.reverse_append, List.reverse_cons, List.append_assoc]
  have hall : ∀ a ∈ ext.reverse, (fun c => decide (c ≠ '.')) a = true := by
    intro a ha
    simp only [decide_eq_true_eq]
    intro h
    exact hdot (h ▸ List.mem_reverse.mp ha)
  rw [takeWhile_append_all hall]
  have hstop : List.takeWhile (fun c => decide (c ≠ '.'))
      (['.'] ++ base.reverse) = [] := by
    simp [List.takeWhile_cons]
  rw [hstop, List.append_nil, List.reverse_reverse]

/-- The pattern `'.' :: ext` cannot begin strictly inside `base` and end
in the appended copy: an occurrence of the pattern in `t ++ '.' :: ext`
for a non-empty suffix `t` of `base` would force either an occurrence
inside `base` or a dot inside `ext`. -/
theorem pattern_no_crossing (ext base : List Char) (hdot : '.' ∉ ext)
    (hnin : ¬ ('.' :: ext) <:+: base) :
    ∀ t, t ≠ [] → t <:+ base → ¬ ('.' :: ext) <+: (t ++ '.' :: ext) := by
  intro t ht hsub hpre
  rcases List.prefix_or_prefix_of_prefix hpre
      (List.prefix_append t ('.' :: ext)) with hc | hc
  · exact hnin (hc.isInfix.trans hsub.isInfix)
  · obtain ⟨d, hd⟩ := hc
    obtain ⟨r, hr2⟩ := hpre
    cases t with
    | nil => exact ht rfl
    | cons x t' =>
      rw [List.cons_append] at hd
      injection hd.symm with hx hext
      have h2 := hr2
      rw [← hd, List.cons_append, List.cons_append] at h2
      injection h2 with h2a h3
      rw [List.append_assoc] at h3
      have h4 := List.append_cancel_left h3
      cases d with
      | nil =>
        apply hnin
        have ht_eq : ('.' :: ext) = x :: t' := by
          rw [← hd, List.append_nil]
        have hsuf : ('.' :: ext) <:+ base := by
          rw [ht_eq]
          exact hsub
        exact hsuf.isInfix
      | cons e d' =>
        rw [List.cons_append] at h4
        injection h4 with he h5
        apply hdot
        rw [hext]
        refine List.mem_append.mpr (Or.inr ?_)
        have hde : '.' = e := hx.trans he.symm
        rw [← hde]
        exact List.mem_cons_self _ _

/-- `pyReplaceAux` maps `[]` to `[]` whatever the fuel. -/
theorem pyReplaceAux_nil (c : Char) (p : List Char) (fuel : Nat) :
    pyReplaceAux c p fuel [] = [] := by
  cases fuel <;> rfl

/-- With enough fuel, scanning `base ++ (c :: p)` removes exactly the
final copy of the pattern when the pattern occurs at no earlier
position. -/
theorem pyReplaceAux_strip_final (c : Char) (p : List Char) :
    ∀ (base : List Char) (fuel : Nat),
      (base ++ c :: p).length ≤ fuel →
      (∀ t, t ≠ [] → t <:+ base → ¬ (c :: p) <+: (t ++ c :: p)) →
      pyReplaceAux c p fuel (base ++ c :: p) = base := by
  intro base
  induction base with
  | nil =>
    intro fuel hfuel _
    cases fuel with
    | zero =>
      exfalso
      simp at hfuel
    | succ k =>
      rw [List.nil_append]
      have hself : (c :: p).isPrefixOf (c :: p) = true :=
        List.isPrefixOf_iff_prefix.mpr (List.prefix_refl _)
      simp only [pyReplaceAux]
      rw [if_pos hself, List.drop_length]
      exact pyReplaceAux_nil c p k
  | cons a b ih =>
    intro fuel hfuel hocc
    cases fuel with
    | zero =>
      exfalso
      have : 0 < ((a :: b) ++ c :: p).length := by simp
      omega
    | succ k =>
      rw [List.cons_append]
      have hnot : ¬ ((c :: p).isPrefixOf (a :: (b ++ c :: p)) = true) := by
        intro hpre
        refine hocc (a :: b) (by simp) (List.suffix_refl _) ?_
        exact List.isPrefixOf_iff_prefix.mp hpre
      simp only [pyReplaceAux]
      rw [if_neg hnot]
      congr 1
      refine ih k ?_ ?_
      · have : ((a :: b) ++ c :: p).length = (b ++ c :: p).length + 1 := by simp
        omega
      · intro t ht hsub
        exact hocc t ht (hsub.trans (List.suffix_cons a b))

/-- C8 (amended): the ingestor's lookup key is the filename with EVERY
occurrence of `"." + extension` removed (Python `str.replace`), the
extension being the token after the last dot; when that pattern occurs
nowhere in the filename except as its trailing suffix, this coincides
with removing the trailing extension, i.e. the drop file
`{internalMeetingID}.{ext}` maps back to `internalMeetingID` exactly
when `internalMeetingID` does not itself contain `".ext"`. -/
theorem C8_lookup_key (base ext : List Char)
    (hdot : '.' ∉ ext) (hnin : ¬ ('.' :: ext) <:+: base) :
    pyReplace ⟨base ++ '.' :: ext⟩ ("." ++ extension_of ⟨base ++ '.' :: ext⟩)
      = ⟨base⟩ := by
  have hext : extension_of ⟨base ++ '.' :: ext⟩ = (⟨ext⟩ : String) := by
    show (⟨extTokenOf (base ++ '.' :: ext)⟩ : String) = ⟨ext⟩
    rw [extTokenOf_append_ext base ext hdot]
  rw [hext]
  show (⟨pyReplaceDel '.' ext (base ++ '.' :: ext)⟩ : String) = ⟨base⟩
  exact congrArg String.mk
    (pyReplaceAux_strip_final '.' ext base (base ++ '.' :: ext).length le_rfl
      (pattern_no_crossing ext base hdot hnin))

/-- C8 (witness): the drop file `"abc.mp4"` maps back to `"abc"`. -/
theorem C8_lookup_key_witness :
    pyReplace ⟨"abc".data ++ '.' :: "mp4".data⟩
        ("." ++ extension_of ⟨"abc".data ++ '.' :: "mp4".data⟩)
      = ⟨"abc".data⟩ :=
  C8_lookup_key "abc".data "mp4".data (by decide) (by decide)

/-! ## C3 — a failing file move aborts the run -/

/-- If the head file passes the extension gate, maps to an existing
session and its move fails, `process_directory` stops with the raised
error: the remaining files are never examined. -/
theorem process_directory_error_head (move_ok : String → Bool)
    (filename : String) (rest : List String) (h m : String) (db : Db)
    (hext : extension_of filename ∈ VIDEO_ALLOWED_EXTENSIONS)
    (hne : filename ≠ extension_of filename)
    (hfound : (db.meetings.find? (fun o => decide (o.internal_meeting_id
        = pyReplace filename ("." ++ extension_of filename)))).isSome = true)
    (hmv : move_ok filename = false) :
    process_directory move_ok (filename :: rest) h m db
      = Except.error ("move failed: " ++ filename) := by
  obtain ⟨o, ho⟩ := Option.isSome_iff_exists.mp hfound
  unfold process_directory
  rw [if_pos ⟨hext, hne⟩]
  unfold encode_file_exist
  dsimp only
  rw [ho, hmv]
  rfl

/-- C3 (amended): a failure while moving a recording file aborts the
run — `encode_file_exist` and the walk loop of `Command.handle` have no
exception handling, so the raised error propagates: the remaining files
are not processed and the run never reaches the reporting stage. -/
theorem C3_move_failure_aborts (parseDate : String → Option Int)
    (move_ok : String → Bool) (format : String) (inp : RunInput) (db : Db)
    (filename : String) (rest : List String)
    (hfiles : inp.files = filename :: rest)
    (hext : extension_of filename ∈ VIDEO_ALLOWED_EXTENSIONS)
    (hne : filename ≠ extension_of filename)
    (hfound : ((run_discovery_poller_matching parseDate format inp db).1.meetings.find?
        (fun o => decide (o.internal_meeting_id
          = pyReplace filename ("." ++ extension_of filename)))).isSome = true)
    (hmv : move_ok filename = false) :
    Command_handle parseDate move_ok format inp db
      = Except.error ("move failed: " ++ filename) := by
  have herr := process_directory_error_head move_ok filename rest
    (run_discovery_poller_matching parseDate format inp db).2.1
    (run_discovery_poller_matching parseDate format inp db).2.2
    (run_discovery_poller_matching parseDate format inp db).1
    hext hne hfound hmv
  unfold Command_handle
  rw [hfiles]
  show (match process_directory move_ok (filename :: rest)
      (run_discovery_poller_matching parseDate format inp db).2.1
      (run_discovery_poller_matching parseDate format inp db).2.2
      (run_discovery_poller_matching parseDate format inp db).1 with
    | Except.error e => Except.error e
    | Except.ok (db4, h4, m4) =>
      Except.ok (db4, if m4 ≠ "" then some (h4, m4) else none))
    = Except.error ("move failed: " ++ filename)
  rw [herr]

/-- C3 (counterexample): contrary to the claim, a failed move of the
first drop file makes the whole run abort with that error — the second
file (which, alone, would have produced a video row and a move) is
never processed, and the reporting stage is never reached. -/
theorem C3_counterexample :
    Command_handle (fun _ => some 0) c3_move_ok "first_name last_name"
        c3_input c3_db = Except.error "move failed: M1.webm" ∧
    process_directory c3_move_ok ["M2.webm"] "" "" c3_db
      = Except.ok ({ c3_db with
          videos := [{ title := "Two", owner := none,
                       type_id := DEFAULT_BBB_TYPE_ID, date_evt := 0,
                       video := "M2.webm" }],
          moved := ["M2.webm"] }, "", "") := by
  refine ⟨by rfl, by rfl⟩

/-- C3 (witness): the amended theorem applied to the concrete scenario. -/
theorem C3_move_failure_aborts_witness :
    Command_handle (fun _ => some 0) c3_move_ok "first_name last_name"
        c3_input c3_db = Except.error ("move failed: " ++ "M1.webm") :=
  C3_move_failure_aborts (fun _ => some 0) c3_move_ok "first_name last_name"
    c3_input c3_db "M1.webm" ["M2.webm"] rfl (by decide) (by decide)
    (by decide) (by decide)
